import Mathlib

/-!
# Verification of the Video-Watermark batch watermarking core

A shallow embedding of the processing core of `src/main.js` (an Electron
application that batch-applies a rendered text watermark to video files),
together with proofs about it.

Modelling conventions:
* JavaScript numbers are modelled as `ℚ` (for brightness, opacity, font
  sizes) or `Nat` (for pixel dimensions and indices).  Where `Math.floor`
  is applied to a product with the decimal literals `0.3` / `0.7`, we use
  exact rational arithmetic (`3 * w / 10` in `Nat`); IEEE-754 rounding of
  the double product can only ever agree with, or fall below, the exact
  rational floor at integer pixel sizes, so the containment invariants
  proved here also hold for the double computation.
* JavaScript `NaN` (from `parseInt` on non-numeric input) is modelled as
  `none` in an `Option Nat` channel value.
* Strings are Lean `String`s; the character-level operations of the source
  (`for (const char of text)`, `substring`, `startsWith`) are modelled on
  `List Char` via `String.data`.
* External effects (ffprobe, ffmpeg thumbnail extraction and compositing,
  sharp pixel access, canvas rasterisation) are oracles collected in a
  `World` structure; each oracle returns `Except String α`, the `.error`
  case standing for a thrown/rejected JS error carrying its message.
-/

namespace VideoWatermark

/-! ## CONFIG constants (src/main.js, `CONFIG`) -/

/-- `CONFIG.PADDING.x` (= `CONFIG.PADDING.y` = 10). -/
def PADDING_X : Nat := 10

/-- `CONFIG.PADDING.y`. -/
def PADDING_Y : Nat := 10

/-- `CONFIG.BRIGHTNESS_THRESHOLD = 0.5`. -/
def BRIGHTNESS_THRESHOLD : ℚ := 0.5

/-! ## Color parsing (src/main.js, `parseColor`) -/

/-- Hex digit predicate, as accepted by JS `parseInt(·, 16)`. -/
def isHexDigitChar (c : Char) : Bool :=
  ('0' ≤ c && c ≤ '9') || ('a' ≤ c && c ≤ 'f') || ('A' ≤ c && c ≤ 'F')

/-- Numeric value of a hex digit. -/
def hexDigitVal (c : Char) : Nat :=
  if '0' ≤ c && c ≤ '9' then c.toNat - '0'.toNat
  else if 'a' ≤ c && c ≤ 'f' then c.toNat - 'a'.toNat + 10
  else if 'A' ≤ c && c ≤ 'F' then c.toNat - 'A'.toNat + 10
  else 0

/-- Value of a list of hex digits, most significant first. -/
def hexValue (l : List Char) : Nat :=
  l.foldl (fun acc c => acc * 16 + hexDigitVal c) 0

/-- JS `parseInt(s, 16)`: parse the longest prefix of hex digits; an empty
prefix gives `NaN`, modelled as `none`.  (Leading whitespace, signs and a
`0x` prefix, which JS also accepts, are not modelled: the inputs here are
two-character slices of a user-supplied color string.) -/
def jsParseIntHex (s : List Char) : Option Nat :=
  let ds := s.takeWhile isHexDigitChar
  if ds.isEmpty then none else some (hexValue ds)

/-- An RGB triple whose channels are JS numbers; `none` models `NaN`. -/
structure RGB where
  r : Option Nat
  g : Option Nat
  b : Option Nat
deriving DecidableEq, Repr

/-- `parseColor` (src/main.js:66-74): a string not starting with `#` yields
opaque white; otherwise the three two-character slices after the `#` are
parsed with `parseInt(·, 16)`. -/
def parseColor (color : String) : RGB :=
  match color.data with
  | '#' :: hex =>
      { r := jsParseIntHex (hex.take 2)
        g := jsParseIntHex ((hex.drop 2).take 2)
        b := jsParseIntHex ((hex.drop 4).take 2) }
  | _ => { r := some 255, g := some 255, b := some 255 }

/-! ## Brightness and color decision (src/main.js, `calculateBrightness`,
`getColorByBrightness`) -/

/-- `calculateBrightness` (src/main.js:83-85): BT.601 luma, normalised to
`[0,1]` (exact rational arithmetic in place of IEEE doubles). -/
def calculateBrightness (r g b : ℚ) : ℚ :=
  (0.299 * r + 0.587 * g + 0.114 * b) / 255

/-- The record returned by `getColorByBrightness`: the recommended text
color and the class `"dark"`/`"light"` of the background. -/
structure ColorChoice where
  color : String
  type : String
deriving DecidableEq, Repr

/-- `getColorByBrightness` (src/main.js:92-96). -/
def getColorByBrightness (brightness : ℚ) : ColorChoice :=
  { color := if brightness > BRIGHTNESS_THRESHOLD then "#000000" else "#FFFFFF"
    type := if brightness > BRIGHTNESS_THRESHOLD then "dark" else "light" }

/-! ## Region geometry (src/main.js, `getRegionConfig`) -/

/-- A sampling rectangle in pixel units. -/
structure Region where
  left : Nat
  top : Nat
  width : Nat
  height : Nat
deriving DecidableEq, Repr

/-- `getRegionConfig` (src/main.js:146-154): corner sampling regions of
30% of each dimension; an unknown position falls back to `bottom-right`.
`Math.floor (d * 0.3)` is modelled as `3 * d / 10` in `Nat`. -/
def getRegionConfig (position : String) (width height : Nat) : Region :=
  if position = "top-left" then
    { left := 0, top := 0, width := 3 * width / 10, height := 3 * height / 10 }
  else if position = "top-right" then
    { left := 7 * width / 10, top := 0, width := 3 * width / 10, height := 3 * height / 10 }
  else if position = "bottom-left" then
    { left := 0, top := 7 * height / 10, width := 3 * width / 10, height := 3 * height / 10 }
  else
    { left := 7 * width / 10, top := 7 * height / 10
      width := 3 * width / 10, height := 3 * height / 10 }

/-! ## Overlay filter (src/main.js, `buildOverlayFilter`) -/

/-- `buildOverlayFilter` (src/main.js:128-137), with `CONFIG.PADDING`
already substituted (x = y = 10); unknown position falls back to
`bottom-right`. -/
def buildOverlayFilter (position : String) : String :=
  if position = "top-left" then "overlay=10:10"
  else if position = "top-right" then "overlay=W-w-10:10"
  else if position = "bottom-left" then "overlay=10:H-h-10"
  else "overlay=W-w-10:H-h-10"

/-! ## Greedy character-level text wrapping (src/main.js, `wrapText`)

`ctx.measureText(s).width` is an arbitrary deterministic function of the
string (the canvas context's metric for the configured font), so the
wrapper is parametrised by a measure `List Char → ℚ`. -/

/-- The loop of `wrapText` (src/main.js:109-119): `currentLine` is the
accumulator; the remaining text is consumed one character at a time. -/
def wrapTextLoop (measure : List Char → ℚ) (maxWidth : ℚ)
    (currentLine : List Char) : List Char → List (List Char)
  | [] => if currentLine.length > 0 then [currentLine] else []
  | c :: rest =>
      let testLine := currentLine ++ [c]
      if measure testLine > maxWidth ∧ currentLine.length > 0 then
        currentLine :: wrapTextLoop measure maxWidth [c] rest
      else
        wrapTextLoop measure maxWidth testLine rest

/-- `wrapText` (src/main.js:105-121). -/
def wrapText (text : List Char) (measure : List Char → ℚ) (maxWidth : ℚ) :
    List (List Char) :=
  wrapTextLoop measure maxWidth [] text

/-! ## Path arithmetic (Node `path` module, posix flavour)

`process-videos` derives the output path with `path.dirname`,
`path.basename`, `path.extname` and `path.join`.  These library functions
are modelled here for ordinary paths (a directory part, `/` separators, a
dotted file name); the exotic Node edge cases (trailing slashes, the
basenames `.` and `..`, `join` normalisation) do not arise for the paths
the application passes in. -/

/-- The suffix of `l` after the last occurrence of `c` (all of `l` when
`c` does not occur). -/
def afterLastChar (c : Char) (l : List Char) : List Char :=
  (l.reverse.takeWhile (fun x => x ≠ c)).reverse

/-- `path.basename p`: the part after the last `/`. -/
def basenameOf (p : String) : String :=
  ⟨afterLastChar '/' p.data⟩

/-- `path.dirname p`: the part before the last `/` (`.` when there is no
`/`, `/` when the only `/` is leading). -/
def dirnameOf (p : String) : String :=
  if '/' ∈ p.data then
    if ((p.data.reverse.dropWhile (fun x => x ≠ '/')).tail.reverse).isEmpty
    then "/"
    else ⟨(p.data.reverse.dropWhile (fun x => x ≠ '/')).tail.reverse⟩
  else "."

/-- `path.extname` applied to a basename `bn`: the suffix starting at the
last `.`, provided that dot is not the first character; otherwise `""`. -/
def extnameOfBase (bn : List Char) : List Char :=
  let k := (bn.reverse.takeWhile (fun x => x ≠ '.')).length
  if k + 1 < bn.length then bn.drop (bn.length - 1 - k) else []

/-- `path.extname p`. -/
def extnameOf (p : String) : String :=
  ⟨extnameOfBase (basenameOf p).data⟩

/-- `path.basename(p, ext)` with `ext = path.extname p`: the basename with
its own extension stripped. -/
def stemOf (p : String) : String :=
  let bn := (basenameOf p).data
  ⟨bn.take (bn.length - (extnameOfBase bn).length)⟩

/-- `path.join dir name` for a plain `name` (no normalisation needed). -/
def pathJoin (dir name : String) : String :=
  dir ++ "/" ++ name

/-- The output path computed by the batch runner (src/main.js:390-391):
`path.join(path.dirname f, path.basename(f, path.extname f) + "-watermark.mp4")`.
The extension is the literal `.mp4` regardless of the source container. -/
def outputFileFor (f : String) : String :=
  pathJoin (dirnameOf f) (stemOf f ++ "-watermark.mp4")

/-! ## The batch job runner (src/main.js, `ipcMain.handle('process-videos')`)

All externally-effectful steps are oracles in a `World`; the runner's
control flow (per-job `try`/`catch`, ordering, event emission) is modelled
exactly. -/

/-- Probe result (src/main.js, `getVideoInfo`). -/
structure VideoInfo where
  width : Nat
  height : Nat
  duration : ℚ
deriving DecidableEq, Repr

/-- The fields of the value resolved by `analyzeVideoColor` that the batch
runner reads (src/main.js:269: `color`, `brightness`, `type`). -/
structure AnalyzeResult where
  color : String
  brightness : ℚ
  type : String
deriving DecidableEq, Repr

/-- The external effects of one batch run.  Each field models one
fallible capability; `.error msg` stands for a rejected promise / thrown
error whose `.message` is `msg`. -/
structure World where
  /-- `fs.existsSync`. -/
  fileExists : String → Bool
  /-- `getVideoInfo` (ffprobe + video-stream selection, src/main.js:206-223);
  both probe errors and the missing-stream error collapse into the message. -/
  getVideoInfo : String → Except String VideoInfo
  /-- `analyzeVideoColor` (src/main.js:278-283): thumbnail extraction plus
  region pixel averaging; arguments are the video path and the position. -/
  analyzeVideoColor : String → String → Except String AnalyzeResult
  /-- `generateWatermarkImage` (src/main.js:166-199) on a present text:
  canvas rasterisation, taking (text, scaledFontSize, color, opacity,
  videoWidth, videoHeight).  The buffer's content is irrelevant to the
  runner's control flow, so only success/failure is modelled. -/
  synthesize : String → ℤ → String → ℚ → Nat → Nat → Except String Unit
  /-- `processVideoWithCanvasWatermark` (src/main.js:294-317), taking
  (inputPath, outputPath, overlayFilter). -/
  composite : String → String → String → Except String Unit

/-- The request object of `process-videos` (src/main.js:380).
`watermarkText = none` models a request in which the required text field
is absent (`undefined` after destructuring). -/
structure Options where
  videoFiles : List String
  watermarkText : Option String
  fontSize : ℚ
  watermarkColor : String
  opacity : ℚ
  position : String
  enableSmartColor : Bool

/-- The events the runner sends to the renderer (progress ticks from
ffmpeg are asynchronous callbacks and are not modelled). -/
inductive Event where
  /-- `processing-status` (src/main.js:398-403). -/
  | processingStatus (file status : String) (index total : Nat)
  /-- `color-analyzed` (src/main.js:410-417 and 420-427); `error = none`
  on successful analysis. -/
  | colorAnalyzed (file color : String) (error : Option String)
      (type position : String) (index : Nat)
  /-- `file-completed` (src/main.js:445 and 449). -/
  | fileCompleted (file status : String) (error : Option String)
      (index total : Nat)
deriving DecidableEq, Repr

/-- One entry of the result list (src/main.js:444 and 448): absent object
fields are `none`. -/
structure JobResult where
  file : String
  status : String
  output : Option String
  color : Option String
  colorType : Option String
  error : Option String
deriving DecidableEq, Repr

/-- JS `Math.round` (round half away from zero is round half up for the
non-negative values arising here). -/
def jsRound (q : ℚ) : ℤ :=
  ⌊q + 1 / 2⌋

/-- `generateWatermarkImage` as called by the runner: on a missing text
(`undefined`), the `for (const char of text)` loop of `wrapText` throws a
`TypeError` before anything else happens; otherwise the canvas oracle
decides. -/
def generateWatermark (w : World) (text : Option String) (fontSize : ℤ)
    (color : String) (opacity : ℚ) (videoWidth videoHeight : Nat) :
    Except String Unit :=
  match text with
  | none => .error "watermarkText is not iterable"
  | some t => w.synthesize t fontSize color opacity videoWidth videoHeight

/-- The error-branch result record (src/main.js:448). -/
def errorResult (baseName msg : String) : JobResult :=
  { file := baseName, status := "error", output := none, color := none
    colorType := none, error := some msg }

/-- The smart-color phase of one job (src/main.js:397-429), run only when
`enableSmartColor` is set: returns `(finalColor, colorType)` and the
events it sent.  On analysis failure, `finalColor` remains the manual
`watermarkColor` (and `colorType` keeps its initial value `'manual'`,
`src/main.js:395`), while the `color-analyzed` event carries the manual
color, the error message and the marker type `'original'`. -/
def smartColorPhase (w : World) (o : Options) (i total : Nat)
    (videoFile : String) : String × String × List Event :=
  let baseName := basenameOf videoFile
  if o.enableSmartColor then
    match w.analyzeVideoColor videoFile o.position with
    | .ok cr =>
        (cr.color, cr.type,
         [.processingStatus baseName "analyzing" i total,
          .colorAnalyzed baseName cr.color none cr.type o.position i])
    | .error e =>
        (o.watermarkColor, "manual",
         [.processingStatus baseName "analyzing" i total,
          .colorAnalyzed baseName o.watermarkColor (some e) "original" o.position i])
  else
    (o.watermarkColor, "manual", [])

/-- The synthesis and compositing tail of one job (src/main.js:431-445),
reached once the probe has succeeded, with `finalColor`/`colorType` and
the already-sent events of the smart-color phase. -/
def finishJob (w : World) (o : Options) (i total : Nat) (videoFile : String)
    (info : VideoInfo) (finalColor colorType : String)
    (scEvents : List Event) : JobResult × List Event :=
  let baseName := basenameOf videoFile
  let outputFile := outputFileFor videoFile
  let scaledFontSize := jsRound (o.fontSize * (info.height / 1080))
  match generateWatermark w o.watermarkText scaledFontSize finalColor
      o.opacity info.width info.height with
  | .error e =>
      (errorResult baseName e,
       scEvents ++ [.fileCompleted baseName "error" (some e) i total])
  | .ok _ =>
      match w.composite videoFile outputFile (buildOverlayFilter o.position) with
      | .error e =>
          (errorResult baseName e,
           scEvents ++ [.fileCompleted baseName "error" (some e) i total])
      | .ok _ =>
          ({ file := baseName, status := "success", output := some outputFile
             color := some finalColor, colorType := some colorType, error := none },
           scEvents ++ [.fileCompleted baseName "success" none i total])

/-- One iteration of the `for` loop of `process-videos`
(src/main.js:383-451): the body of the per-job `try`/`catch`, returning
the pushed `JobResult` together with the events sent while it ran. -/
def runJob (w : World) (o : Options) (i total : Nat) (videoFile : String) :
    JobResult × List Event :=
  let baseName := basenameOf videoFile
  if w.fileExists videoFile = false then
    (errorResult baseName "文件不存在",
     [.fileCompleted baseName "error" (some "文件不存在") i total])
  else
    match w.getVideoInfo videoFile with
    | .error e =>
        (errorResult baseName e, [.fileCompleted baseName "error" (some e) i total])
    | .ok info =>
        let sc := smartColorPhase w o i total videoFile
        finishJob w o i total videoFile info sc.1 sc.2.1 sc.2.2

/-- The `process-videos` handler (src/main.js:379-454).  The handler's
promise could only reject for a throw outside the per-job `try`; the body
contains no entry validation and no such throw, so the `Except` layer
(present so that "rejected at entry" is expressible) never takes the
`.error` branch. -/
def processVideos (w : World) (o : Options) : Except String (List JobResult) :=
  .ok (o.videoFiles.enum.map fun p => (runJob w o p.1 o.videoFiles.length p.2).1)

/-! ## Theorems -/

/-- C4: for every brightness value `b ∈ [0,1]`, `getColorByBrightness`
returns black text with class `"dark"` when `b > 0.5` and white text with
class `"light"` when `b ≤ 0.5`; the returned color and class are always
consistent (black iff `"dark"`, white iff `"light"`). -/
theorem getColorByBrightness_decision (b : ℚ) (_h0 : 0 ≤ b) (_h1 : b ≤ 1) :
    ((0.5 : ℚ) < b →
      getColorByBrightness b = { color := "#000000", type := "dark" })
    ∧ (b ≤ (0.5 : ℚ) →
      getColorByBrightness b = { color := "#FFFFFF", type := "light" })
    ∧ ((getColorByBrightness b).color = "#000000"
        ↔ (getColorByBrightness b).type = "dark")
    ∧ ((getColorByBrightness b).color = "#FFFFFF"
        ↔ (getColorByBrightness b).type = "light") := by
  by_cases hb : BRIGHTNESS_THRESHOLD < b
  · refine ⟨fun _ => ?_, fun hle => ?_, ?_, ?_⟩ <;>
      simp_all [getColorByBrightness, BRIGHTNESS_THRESHOLD]
    · exact absurd hb (by rw [not_lt]; exact_mod_cast hle)
  · refine ⟨fun hlt => ?_, fun _ => ?_, ?_, ?_⟩ <;>
      simp_all [getColorByBrightness, BRIGHTNESS_THRESHOLD]

/-- Witness for C4 at the concrete brightness `3/4`. -/
theorem getColorByBrightness_decision_witness :
    ((0.5 : ℚ) < 3 / 4 →
      getColorByBrightness (3 / 4) = { color := "#000000", type := "dark" })
    ∧ ((3 / 4 : ℚ) ≤ 0.5 →
      getColorByBrightness (3 / 4) = { color := "#FFFFFF", type := "light" })
    ∧ ((getColorByBrightness (3 / 4)).color = "#000000"
        ↔ (getColorByBrightness (3 / 4)).type = "dark")
    ∧ ((getColorByBrightness (3 / 4)).color = "#FFFFFF"
        ↔ (getColorByBrightness (3 / 4)).type = "light") :=
  getColorByBrightness_decision (3 / 4) (by norm_num) (by norm_num)

/-- C5, counterexample: at the boundary brightness `0.5` the code does
NOT select black/`"dark"` (the comparison `brightness > 0.5` is strict). -/
theorem getColorByBrightness_half_not_dark :
    getColorByBrightness 0.5 ≠ { color := "#000000", type := "dark" } := by
  have hv : getColorByBrightness 0.5 = { color := "#FFFFFF", type := "light" } := by
    simp [getColorByBrightness, BRIGHTNESS_THRESHOLD]
  rw [hv]
  decide

/-- C5, amended: `getColorByBrightness` applied to the exact boundary
value `0.5` selects white text with class `"light"` (the boundary is
inclusive on the light side). -/
theorem getColorByBrightness_half_light :
    getColorByBrightness 0.5 = { color := "#FFFFFF", type := "light" } := by
  simp [getColorByBrightness, BRIGHTNESS_THRESHOLD]

/-- C6, counterexample: a string starting with `#` but containing non-hex
characters does NOT yield opaque white — all three channels come out as
`NaN` (`none`). -/
theorem parseColor_malformed_not_white :
    parseColor "#GGGGGG" = { r := none, g := none, b := none }
    ∧ parseColor "#GGGGGG" ≠ { r := some 255, g := some 255, b := some 255 } := by
  constructor <;> decide

/-- C6, amended: only a string that does not start with `#` yields opaque
white `(255,255,255)`; a string starting with `#` is sliced positionally
and parsed with `parseInt(·,16)`, which yields `NaN` (not white) channels
for non-hex or too-short content.  Parsing never throws. -/
theorem parseColor_no_hash_white (s : String) (h : s.data.head? ≠ some '#') :
    parseColor s = { r := some 255, g := some 255, b := some 255 } := by
  unfold parseColor
  split
  · rename_i hex heq
    exact absurd (by rw [heq]; rfl) h
  · rfl

/-- Witness for C6 (amended) at the concrete string `"red"`. -/
theorem parseColor_no_hash_white_witness :
    parseColor "red" = { r := some 255, g := some 255, b := some 255 } :=
  parseColor_no_hash_white "red" (by decide)

/-- C7: for every position string and all `width, height > 0`, the
sampling region of `getRegionConfig` is fully contained in
`[0,width) × [0,height)`: `left` and `top` are non-negative and
`left + region.width ≤ width`, `top + region.height ≤ height`. -/
theorem getRegionConfig_contained (pos : String) (w h : Nat)
    (hw : 0 < w) (hh : 0 < h) :
    0 ≤ (getRegionConfig pos w h).left
    ∧ 0 ≤ (getRegionConfig pos w h).top
    ∧ (getRegionConfig pos w h).left + (getRegionConfig pos w h).width ≤ w
    ∧ (getRegionConfig pos w h).top + (getRegionConfig pos w h).height ≤ h := by
  unfold getRegionConfig
  split_ifs <;> dsimp only <;> refine ⟨?_, ?_, ?_, ?_⟩ <;> omega

/-- Witness for C7 at position `"top-right"`, `width = 641`,
`height = 361`. -/
theorem getRegionConfig_contained_witness :
    0 ≤ (getRegionConfig "top-right" 641 361).left
    ∧ 0 ≤ (getRegionConfig "top-right" 641 361).top
    ∧ (getRegionConfig "top-right" 641 361).left
        + (getRegionConfig "top-right" 641 361).width ≤ 641
    ∧ (getRegionConfig "top-right" 641 361).top
        + (getRegionConfig "top-right" 641 361).height ≤ 361 :=
  getRegionConfig_contained "top-right" 641 361 (by decide) (by decide)

/-! ### Text wrapping: helper lemmas -/

/-- Concatenating the lines of the wrapping loop restores the accumulator
followed by the remaining text. -/
theorem wrapTextLoop_flatten (measure : List Char → ℚ) (maxWidth : ℚ) :
    ∀ (text currentLine : List Char),
      (wrapTextLoop measure maxWidth currentLine text).flatten
        = currentLine ++ text := by
  intro text
  induction text with
  | nil =>
      intro cl
      by_cases hcl : cl.length > 0
      · simp [wrapTextLoop, hcl]
      · have hnil : cl = [] := List.eq_nil_of_length_eq_zero (by omega)
        subst hnil
        simp [wrapTextLoop]
  | cons c rest ih =>
      intro cl
      by_cases hbr : measure (cl ++ [c]) > maxWidth ∧ cl.length > 0 <;>
        simp [wrapTextLoop, hbr, ih]

/-- Every line produced by the wrapping loop is fit or a single
character, provided the accumulator is empty, a single character, or fit. -/
theorem wrapTextLoop_fit (measure : List Char → ℚ) (maxWidth : ℚ) :
    ∀ (text currentLine : List Char),
      (currentLine = [] ∨ currentLine.length = 1 ∨ measure currentLine ≤ maxWidth) →
      ∀ line ∈ wrapTextLoop measure maxWidth currentLine text,
        line.length = 1 ∨ measure line ≤ maxWidth := by
  intro text
  induction text with
  | nil =>
      intro cl hcl line hline
      by_cases h : cl.length > 0
      · simp [wrapTextLoop, h] at hline
        subst hline
        rcases hcl with h' | h' | h'
        · simp [h'] at h
        · exact Or.inl h'
        · exact Or.inr h'
      · simp [wrapTextLoop, h] at hline
  | cons c rest ih =>
      intro cl hcl line hline
      by_cases hbr : measure (cl ++ [c]) > maxWidth ∧ cl.length > 0
      · simp only [wrapTextLoop, if_pos hbr, List.mem_cons] at hline
        rcases hline with rfl | hline
        · rcases hcl with h' | h' | h'
          · simp [h'] at hbr
          · exact Or.inl h'
          · exact Or.inr h'
        · exact ih [c] (Or.inr (Or.inl rfl)) line hline
      · simp only [wrapTextLoop, if_neg hbr] at hline
        refine ih (cl ++ [c]) ?_ line hline
        rcases not_and_or.mp hbr with h' | h'
        · exact Or.inr (Or.inr (not_lt.mp h'))
        · have : cl = [] := by
            cases cl with
            | nil => rfl
            | cons a l => simp at h'
          subst this
          exact Or.inr (Or.inl rfl)

/-- Every line produced by the wrapping loop is non-empty. -/
theorem wrapTextLoop_ne_nil (measure : List Char → ℚ) (maxWidth : ℚ) :
    ∀ (text currentLine : List Char),
      ∀ line ∈ wrapTextLoop measure maxWidth currentLine text, line ≠ [] := by
  intro text
  induction text with
  | nil =>
      intro cl line hline
      by_cases h : cl.length > 0
      · simp [wrapTextLoop, h] at hline
        subst hline
        intro hnil
        simp [hnil] at h
      · simp [wrapTextLoop, h] at hline
  | cons c rest ih =>
      intro cl line hline
      by_cases hbr : measure (cl ++ [c]) > maxWidth ∧ cl.length > 0
      · simp only [wrapTextLoop, if_pos hbr, List.mem_cons] at hline
        rcases hline with rfl | hline
        · intro hnil
          rw [hnil] at hbr
          simp at hbr
        · exact ih [c] line hline
      · simp only [wrapTextLoop, if_neg hbr] at hline
        exact ih (cl ++ [c]) line hline

/-- C8: for every measure function, input text and `maxWidth`, each line
produced by the character-level greedy wrapping either measures at most
`maxWidth` or consists of exactly one character, and concatenating all
produced lines in order reproduces the original text exactly. -/
theorem wrapText_sound (measure : List Char → ℚ) (text : List Char)
    (maxWidth : ℚ) :
    (∀ line ∈ wrapText text measure maxWidth,
        line.length = 1 ∨ measure line ≤ maxWidth)
    ∧ (wrapText text measure maxWidth).flatten = text := by
  constructor
  · exact wrapTextLoop_fit measure maxWidth text [] (Or.inl rfl)
  · simpa using wrapTextLoop_flatten measure maxWidth text []

/-- Witness for C8: wrapping `"hello"` with the character-count measure
and `maxWidth = 2`. -/
theorem wrapText_sound_witness :
    (∀ line ∈ wrapText "hello".data (fun l => (l.length : ℚ)) 2,
        line.length = 1 ∨ ((line.length : ℚ)) ≤ 2)
    ∧ (wrapText "hello".data (fun l => (l.length : ℚ)) 2).flatten
        = "hello".data :=
  wrapText_sound (fun l => (l.length : ℚ)) "hello".data 2

/-- C10: every line returned by the text wrapper is a non-empty string,
and for the empty input text the returned list is empty. -/
theorem wrapText_lines_nonempty (measure : List Char → ℚ) (text : List Char)
    (maxWidth : ℚ) :
    (∀ line ∈ wrapText text measure maxWidth, line ≠ [])
    ∧ wrapText [] measure maxWidth = [] := by
  constructor
  · exact wrapTextLoop_ne_nil measure maxWidth text []
  · rfl

/-- Witness for C10 at the character-count measure on `"hello"`. -/
theorem wrapText_lines_nonempty_witness :
    (∀ line ∈ wrapText "hello".data (fun l => (l.length : ℚ)) 2, line ≠ [])
    ∧ wrapText [] (fun l => (l.length : ℚ)) 2 = [] :=
  wrapText_lines_nonempty (fun l => (l.length : ℚ)) "hello".data 2

/-! ### Path arithmetic: helper lemmas -/

/-- `takeWhile` over `l1 ++ a :: l2` stops exactly at `a` when all of `l1`
satisfies the predicate and `a` does not. -/
theorem takeWhile_append_stop {α : Type} (p : α → Bool) (l1 : List α) (a : α)
    (l2 : List α) (h : ∀ x ∈ l1, p x = true) (ha : p a = false) :
    (l1 ++ a :: l2).takeWhile p = l1 := by
  induction l1 with
  | nil => simp [List.takeWhile_cons, ha]
  | cons x xs ih =>
      have hx : p x = true := h x (by simp)
      simp only [List.cons_append, List.takeWhile_cons, hx, if_true]
      rw [ih fun y hy => h y (by simp [hy])]

/-- `dropWhile` over `l1 ++ a :: l2` stops exactly at `a` when all of `l1`
satisfies the predicate and `a` does not. -/
theorem dropWhile_append_stop {α : Type} (p : α → Bool) (l1 : List α) (a : α)
    (l2 : List α) (h : ∀ x ∈ l1, p x = true) (ha : p a = false) :
    (l1 ++ a :: l2).dropWhile p = a :: l2 := by
  induction l1 with
  | nil => simp [List.dropWhile_cons, ha]
  | cons x xs ih =>
      have hx : p x = true := h x (by simp)
      simp only [List.cons_append, List.dropWhile_cons, hx, if_true]
      exact ih fun y hy => h y (by simp [hy])

/-- `takeWhile` keeps the whole list when every element satisfies the
predicate. -/
theorem takeWhile_all {α : Type} (p : α → Bool) (l : List α)
    (h : ∀ x ∈ l, p x = true) : l.takeWhile p = l := by
  induction l with
  | nil => rfl
  | cons x xs ih =>
      have hx : p x = true := h x (by simp)
      simp only [List.takeWhile_cons, hx, if_true]
      rw [ih fun y hy => h y (by simp [hy])]

/-- The suffix after the last `c` of `l1 ++ c :: l2` is `l2` when `c` does
not occur in `l2`. -/
theorem afterLastChar_append (c : Char) (l1 l2 : List Char) (h : c ∉ l2) :
    afterLastChar c (l1 ++ c :: l2) = l2 := by
  unfold afterLastChar
  rw [show (l1 ++ c :: l2).reverse = l2.reverse ++ c :: l1.reverse by simp]
  have h1 : ∀ x ∈ l2.reverse, decide (x ≠ c) = true := by
    intro x hx
    have hx' : x ∈ l2 := List.mem_reverse.mp hx
    exact decide_eq_true fun he => h (he ▸ hx')
  rw [takeWhile_append_stop _ _ _ _ h1 (by simp), List.reverse_reverse]

/-- `afterLastChar` is the identity when `c` does not occur. -/
theorem afterLastChar_of_not_mem (c : Char) (l : List Char) (h : c ∉ l) :
    afterLastChar c l = l := by
  unfold afterLastChar
  have h1 : ∀ x ∈ l.reverse, decide (x ≠ c) = true := by
    intro x hx
    have hx' : x ∈ l := List.mem_reverse.mp hx
    exact decide_eq_true fun he => h (he ▸ hx')
  rw [takeWhile_all _ _ h1, List.reverse_reverse]

/-- `path.basename` of `dir ++ "/" ++ bn` is `bn` when `bn` contains no
separator. -/
theorem basenameOf_append (dir bn : String) (h : '/' ∉ bn.data) :
    basenameOf (dir ++ "/" ++ bn) = bn := by
  unfold basenameOf
  have hd : (dir ++ "/" ++ bn).data = dir.data ++ '/' :: bn.data := by
    rw [String.data_append, String.data_append]
    simp [show ("/" : String).data = ['/'] from rfl]
  rw [hd, afterLastChar_append _ _ _ h]

/-- `path.basename` of a plain name (no separator) is the name itself. -/
theorem basenameOf_plain (bn : String) (h : '/' ∉ bn.data) :
    basenameOf bn = bn := by
  unfold basenameOf
  rw [afterLastChar_of_not_mem _ _ h]

/-- `path.dirname` of `dir ++ "/" ++ bn` is `dir` when `bn` contains no
separator and `dir` is non-empty. -/
theorem dirnameOf_append (dir bn : String) (h : '/' ∉ bn.data)
    (hdir : dir ≠ "") :
    dirnameOf (dir ++ "/" ++ bn) = dir := by
  unfold dirnameOf
  have hd : (dir ++ "/" ++ bn).data = dir.data ++ '/' :: bn.data := by
    rw [String.data_append, String.data_append]
    simp [show ("/" : String).data = ['/'] from rfl]
  rw [hd]
  rw [if_pos (by simp)]
  rw [show (dir.data ++ '/' :: bn.data).reverse = bn.data.reverse ++ '/' :: dir.data.reverse
      by simp]
  have h1 : ∀ x ∈ bn.data.reverse, decide (x ≠ '/') = true := by
    intro x hx
    have hx' : x ∈ bn.data := List.mem_reverse.mp hx
    exact decide_eq_true fun he => h (he ▸ hx')
  rw [dropWhile_append_stop _ _ _ _ h1 (by simp)]
  simp only [List.tail_cons, List.reverse_reverse]
  have hne : dir.data ≠ [] := by
    intro hnil
    apply hdir
    cases dir with
    | mk l =>
        simp only at hnil
        rw [show ("" : String) = ⟨[]⟩ from rfl]
        exact congrArg String.mk hnil
  rw [if_neg (by simp [List.isEmpty_iff, hne])]

/-- The `stem` of `dir ++ "/" ++ bn` depends only on the basename `bn`. -/
theorem stemOf_append (dir bn : String) (h : '/' ∉ bn.data) :
    stemOf (dir ++ "/" ++ bn) = stemOf bn := by
  unfold stemOf
  rw [basenameOf_append _ _ h, basenameOf_plain _ h]

/-- `path.extname` of a basename ending in the literal `.mp4` is `.mp4`,
whatever (non-empty) prefix comes before it — even one containing dots. -/
theorem extnameOfBase_mp4 (pre : List Char) (hpre : pre ≠ []) :
    extnameOfBase (pre ++ ['.', 'm', 'p', '4']) = ['.', 'm', 'p', '4'] := by
  unfold extnameOfBase
  rw [show (pre ++ ['.', 'm', 'p', '4']).reverse
        = ['4', 'p', 'm'] ++ '.' :: pre.reverse by simp]
  rw [takeWhile_append_stop _ _ _ _ (by decide) (by simp)]
  have hlen : (pre ++ ['.', 'm', 'p', '4']).length = pre.length + 4 := by simp
  have hpos : 0 < pre.length := List.length_pos.mpr hpre
  rw [if_pos (by simp [hlen]; omega)]
  rw [show (pre ++ ['.', 'm', 'p', '4']).length - 1 - ['4', 'p', 'm'].length
        = pre.length by simp [hlen]]
  exact List.drop_left pre _

/-! ### C2: output file naming -/

/-- C2, counterexample: for the source file `/videos/clip.avi` the output
path is `/videos/clip-watermark.mp4` — the extension is the hard-coded
`.mp4`, not the source container extension `.avi`. -/
theorem outputFile_extension_counterexample :
    outputFileFor "/videos/clip.avi" = "/videos/clip-watermark.mp4"
    ∧ outputFileFor "/videos/clip.avi" ≠ "/videos/clip-watermark.avi" := by
  constructor <;> decide

/-- C2, amended: for every successfully processed input file the output
path is a sibling of the source (same directory) named
`<stem>-watermark.mp4` — the extension is always the literal `.mp4`
regardless of the source container extension. -/
theorem outputFile_shape (dir bn : String) (hdir : dir ≠ "") (_hbn : bn ≠ "")
    (h : '/' ∉ bn.data) :
    outputFileFor (dir ++ "/" ++ bn)
        = dir ++ "/" ++ (stemOf bn ++ "-watermark.mp4")
    ∧ extnameOf (outputFileFor (dir ++ "/" ++ bn)) = ".mp4" := by
  have hout : outputFileFor (dir ++ "/" ++ bn)
      = dir ++ "/" ++ (stemOf bn ++ "-watermark.mp4") := by
    unfold outputFileFor pathJoin
    rw [dirnameOf_append _ _ h hdir, stemOf_append _ _ h]
  refine ⟨hout, ?_⟩
  rw [hout]
  unfold extnameOf
  have hsl : '/' ∉ (stemOf bn ++ "-watermark.mp4").data := by
    rw [String.data_append]
    intro hmem
    rcases List.mem_append.mp hmem with h1 | h2
    · unfold stemOf at h1
      rw [basenameOf_plain _ h] at h1
      exact h (List.mem_of_mem_take h1)
    · revert h2
      decide
  rw [basenameOf_append _ _ hsl]
  have hdata : (stemOf bn ++ "-watermark.mp4").data
      = ((stemOf bn).data ++ "-watermark".data) ++ ['.', 'm', 'p', '4'] := by
    rw [String.data_append]
    simp [show "-watermark.mp4".data = "-watermark".data ++ ['.', 'm', 'p', '4'] from rfl]
  rw [hdata, extnameOfBase_mp4 _ (by simp)]

/-- Witness for C2 (amended) at `dir = "/videos"`, `bn = "clip.avi"`. -/
theorem outputFile_shape_witness :
    outputFileFor ("/videos" ++ "/" ++ "clip.avi")
        = "/videos" ++ "/" ++ (stemOf "clip.avi" ++ "-watermark.mp4")
    ∧ extnameOf (outputFileFor ("/videos" ++ "/" ++ "clip.avi")) = ".mp4" :=
  outputFile_shape "/videos" "clip.avi" (by decide) (by decide) (by decide)

/-! ### Batch runner: helper lemmas and sample scenarios -/

/-- The job tail yields either a success record with no error field, or
an error record carrying the failing step's message. -/
theorem finishJob_status (w : World) (o : Options) (i total : Nat)
    (f : String) (info : VideoInfo) (finalColor colorType : String)
    (scEvents : List Event) :
    ((finishJob w o i total f info finalColor colorType scEvents).1.status
        = "success"
      ∧ (finishJob w o i total f info finalColor colorType scEvents).1.error
        = none)
    ∨ ((finishJob w o i total f info finalColor colorType scEvents).1.status
        = "error"
      ∧ ∃ msg,
          (finishJob w o i total f info finalColor colorType scEvents).1.error
            = some msg) := by
  unfold finishJob
  cases hg : generateWatermark w o.watermarkText
      (jsRound (o.fontSize * (info.height / 1080))) finalColor o.opacity
      info.width info.height with
  | error e => simp [hg, errorResult]
  | ok u =>
      cases hc : w.composite f (outputFileFor f) (buildOverlayFilter o.position) with
      | error e => simp [hg, hc, errorResult]
      | ok v => simp [hg, hc]

/-- Every job result is either a success record with no error field, or
an error record carrying the failing step's message. -/
theorem runJob_status (w : World) (o : Options) (i total : Nat) (f : String) :
    ((runJob w o i total f).1.status = "success"
      ∧ (runJob w o i total f).1.error = none)
    ∨ ((runJob w o i total f).1.status = "error"
      ∧ ∃ msg, (runJob w o i total f).1.error = some msg) := by
  unfold runJob
  split
  · simp [errorResult]
  · split
    · simp [errorResult]
    · exact finishJob_status w o i total f _ _ _ _

/-- With the required watermark text missing, the job tail fails at the
synthesis step. -/
theorem finishJob_missing_text (w : World) (o : Options) (i total : Nat)
    (f : String) (info : VideoInfo) (finalColor colorType : String)
    (scEvents : List Event) (h : o.watermarkText = none) :
    (finishJob w o i total f info finalColor colorType scEvents).1.status
      = "error" := by
  unfold finishJob
  rw [h]
  simp [generateWatermark, errorResult]

/-- With the required watermark text missing, every job fails (at the
existence check, the probe, or the synthesis step — never later). -/
theorem runJob_missing_text (w : World) (o : Options) (i total : Nat)
    (f : String) (h : o.watermarkText = none) :
    (runJob w o i total f).1.status = "error" := by
  unfold runJob
  split
  · simp [errorResult]
  · split
    · simp [errorResult]
    · exact finishJob_missing_text w o i total f _ _ _ _ h

/-- A benign oracle world: every file exists and probes as 1920×1080,
analysis recommends black, synthesis and compositing succeed. -/
def sampleWorld : World where
  fileExists := fun _ => true
  getVideoInfo := fun _ => .ok { width := 1920, height := 1080, duration := 60 }
  analyzeVideoColor := fun _ _ => .ok { color := "#000000", brightness := 0.8, type := "dark" }
  synthesize := fun _ _ _ _ _ _ => .ok ()
  composite := fun _ _ _ => .ok ()

/-- Like `sampleWorld`, but color analysis always fails. -/
def analyzeFailWorld : World where
  fileExists := fun _ => true
  getVideoInfo := fun _ => .ok { width := 1920, height := 1080, duration := 60 }
  analyzeVideoColor := fun _ _ => .error "分析失败"
  synthesize := fun _ _ _ _ _ _ => .ok ()
  composite := fun _ _ _ => .ok ()

/-- A well-formed two-file batch request with smart color enabled. -/
def sampleOptions : Options where
  videoFiles := ["/v/a.mp4", "/v/b.avi"]
  watermarkText := some "hi"
  fontSize := 24
  watermarkColor := "#FFFFFF"
  opacity := 0.8
  position := "bottom-right"
  enableSmartColor := true

/-- A structurally invalid batch request: no files and no watermark
text. -/
def invalidOptions : Options where
  videoFiles := []
  watermarkText := none
  fontSize := 24
  watermarkColor := "#FFFFFF"
  opacity := 0.8
  position := "bottom-right"
  enableSmartColor := false

/-! ### C1: one result per input, per-job error isolation -/

/-- C1: for every batch request the runner returns (never rejects) a
result list with exactly one `JobResult` per input file, where the `i`-th
result is computed from the `i`-th input file alone (so one job's failure
cannot affect another); every result is either a success record or an
`"error"` record carrying the failing step's error message. -/
theorem processVideos_per_job (w : World) (o : Options) :
    ∃ rs : List JobResult, processVideos w o = Except.ok rs
      ∧ rs.length = o.videoFiles.length
      ∧ (∀ i : Nat, rs[i]? = (o.videoFiles[i]?).map
            (fun f => (runJob w o i o.videoFiles.length f).1))
      ∧ (∀ i total : Nat, ∀ f : String,
           ((runJob w o i total f).1.status = "success"
              ∧ (runJob w o i total f).1.error = none)
           ∨ ((runJob w o i total f).1.status = "error"
              ∧ ∃ msg, (runJob w o i total f).1.error = some msg)) := by
  refine ⟨_, rfl, ?_, ?_, ?_⟩
  · simp [List.enum_length]
  · intro i
    rw [List.getElem?_map, List.getElem?_enum]
    cases o.videoFiles[i]? <;> rfl
  · intro i total f
    exact runJob_status w o i total f

/-- Witness for C1 at the benign two-file sample batch. -/
theorem processVideos_per_job_witness :
    ∃ rs : List JobResult, processVideos sampleWorld sampleOptions = Except.ok rs
      ∧ rs.length = sampleOptions.videoFiles.length
      ∧ (∀ i : Nat, rs[i]? = (sampleOptions.videoFiles[i]?).map
            (fun f => (runJob sampleWorld sampleOptions i
                sampleOptions.videoFiles.length f).1))
      ∧ (∀ i total : Nat, ∀ f : String,
           ((runJob sampleWorld sampleOptions i total f).1.status = "success"
              ∧ (runJob sampleWorld sampleOptions i total f).1.error = none)
           ∨ ((runJob sampleWorld sampleOptions i total f).1.status = "error"
              ∧ ∃ msg, (runJob sampleWorld sampleOptions i total f).1.error
                  = some msg)) :=
  processVideos_per_job sampleWorld sampleOptions

/-! ### C3: color-analysis failure is non-fatal -/

/-- C3: when smart color is enabled and color analysis fails, the job does
not fail from that cause: the `color-analyzed` event carries the original
manually configured color together with the error message, and — the
remaining steps succeeding — the job completes as a success whose applied
color is the manual color (and whose `colorType` stays `"manual"`). -/
theorem smartColor_failure_nonfatal (w : World) (o : Options)
    (i total : Nat) (f : String) (info : VideoInfo) (msg t : String)
    (hsc : o.enableSmartColor = true)
    (hex : w.fileExists f = true)
    (hinfo : w.getVideoInfo f = .ok info)
    (hana : w.analyzeVideoColor f o.position = .error msg)
    (ht : o.watermarkText = some t)
    (hsynth : w.synthesize t (jsRound (o.fontSize * (info.height / 1080)))
        o.watermarkColor o.opacity info.width info.height = .ok ())
    (hcomp : w.composite f (outputFileFor f)
        (buildOverlayFilter o.position) = .ok ()) :
    runJob w o i total f =
      ({ file := basenameOf f, status := "success",
         output := some (outputFileFor f), color := some o.watermarkColor,
         colorType := some "manual", error := none },
       [.processingStatus (basenameOf f) "analyzing" i total,
        .colorAnalyzed (basenameOf f) o.watermarkColor (some msg) "original"
          o.position i,
        .fileCompleted (basenameOf f) "success" none i total]) := by
  unfold runJob smartColorPhase finishJob
  rw [hex]
  simp only [Bool.true_eq_false, if_false, hinfo, hsc, if_true, hana, ht,
    generateWatermark, hsynth, hcomp]
  rfl

/-- Witness for C3: the analysis-failing world on the sample batch's first
file. -/
theorem smartColor_failure_nonfatal_witness :
    runJob analyzeFailWorld sampleOptions 0 2 "/v/a.mp4" =
      ({ file := basenameOf "/v/a.mp4", status := "success",
         output := some (outputFileFor "/v/a.mp4"), color := some "#FFFFFF",
         colorType := some "manual", error := none },
       [.processingStatus (basenameOf "/v/a.mp4") "analyzing" 0 2,
        .colorAnalyzed (basenameOf "/v/a.mp4") "#FFFFFF" (some "分析失败")
          "original" "bottom-right" 0,
        .fileCompleted (basenameOf "/v/a.mp4") "success" none 0 2]) :=
  smartColor_failure_nonfatal analyzeFailWorld sampleOptions 0 2 "/v/a.mp4"
    { width := 1920, height := 1080, duration := 60 } "分析失败" "hi"
    rfl rfl rfl rfl rfl rfl rfl

/-! ### C9: no entry validation of the batch request -/

/-- C9, counterexample: the structurally invalid batch request (empty file
list, missing watermark text) is NOT rejected at entry — the runner
returns normally with an (empty) result list. -/
theorem processVideos_invalid_not_rejected :
    processVideos sampleWorld invalidOptions = Except.ok ([] : List JobResult)
    ∧ (processVideos sampleWorld invalidOptions).isOk = true :=
  ⟨rfl, rfl⟩

/-- C9, amended: the batch runner performs no entry validation and never
rejects a request: an empty file list yields a normal empty result list
(no job starts because there are none), and a missing required watermark
text is not rejected at entry either — every job runs and fails
individually with a per-job `"error"` result. -/
theorem processVideos_no_entry_validation (w : World) (o : Options) :
    (∃ rs, processVideos w o = Except.ok rs)
    ∧ (o.videoFiles = [] → processVideos w o = Except.ok [])
    ∧ (o.watermarkText = none →
        ∀ rs, processVideos w o = Except.ok rs →
          ∀ r ∈ rs, r.status = "error") := by
  refine ⟨⟨_, rfl⟩, ?_, ?_⟩
  · intro hnil
    simp [processVideos, hnil]
  · intro htext rs hrs r hr
    unfold processVideos at hrs
    cases hrs
    rw [List.mem_map] at hr
    obtain ⟨⟨i, f⟩, _, rfl⟩ := hr
    exact runJob_missing_text w o i _ f htext

/-- Witness for C9 (amended): applied to the invalid request, whose empty
file list yields the normal empty result list. -/
theorem processVideos_no_entry_validation_witness :
    processVideos sampleWorld invalidOptions = Except.ok [] :=
  (processVideos_no_entry_validation sampleWorld invalidOptions).2.1 rfl

end VideoWatermark
